import Mathlib

set_option linter.unusedVariables false

/-!
Verification development for the pdf-to-whatever upload and render
pipeline (src/main.rs and src/lib.rs), shallowly embedded in Lean.

Modelling conventions:
* Byte buffers are values of type List Nat.
* The yew component App is the state AppState; its update function is
  the function update below.
* The gloo FileReader handles stored in App.readers are represented by
  the FileItem that spawned them; the HashMap is an association list
  with replace-on-insert semantics (hmInsert), mirroring
  HashMap::insert which overwrites the previous value for an existing
  key (dropping the previous FileReader, which aborts its read).
* The external capabilities (hayro Pdf::new and pages, hayro render,
  Pixmap::take_png, the image-crate png decode and jpeg re-encode) are
  an abstract Backend record; calls the source wraps in expect or
  unwrap are Option-valued there.
* A zip archive (zip crate, Stored compression) is modelled as the
  ordered list of its (entry name, entry bytes) pairs.
* A Rust panic inside the read_as_bytes callback delivers no completion
  message, so settleTask leaves the state unchanged on failure.
-/

/-- Byte buffer: content of an uploaded file or of an encoded image. -/
abbrev Bytes := List Nat

/-- One uploaded file as supplied by the browser in Msg::Upload:
display name, declared media type, declared byte size, content. -/
structure FileItem where
  name : String
  mime : String
  size : Nat
  data : Bytes
deriving DecidableEq

/-- Result record for one rendered document, mirroring struct
RenderedImage of src/main.rs; the two zip archives are modelled as
their ordered entry lists. -/
structure RenderedImage where
  stem : String
  pdf_human_size : String
  png_zip : List (String × Bytes)
  jpeg_zip : List (String × Bytes)
deriving DecidableEq

/-- Messages of the yew component (enum Msg of src/main.rs). -/
inductive Msg where
  | Render (file : RenderedImage)
  | Upload (batch : List FileItem)

/-- Component state (struct App of src/main.rs): the reader map keyed
by stem, and the list of finished documents. -/
structure AppState where
  readers : List (String × FileItem)
  files : List RenderedImage
deriving DecidableEq

/-- HashMap::insert semantics: replace the value when the key is
already bound (the old FileReader is dropped), otherwise add a new
binding. -/
def hmInsert (k : String) (v : FileItem) :
    List (String × FileItem) → List (String × FileItem)
  | [] => [(k, v)]
  | (k1, v1) :: rest =>
    if k1 = k then (k, v) :: rest else (k1, v1) :: hmInsert k v rest

/-- HashMap::get, used to state registry membership. -/
def hmLookup (k : String) : List (String × FileItem) → Option FileItem
  | [] => none
  | (k1, v) :: rest => if k1 = k then some v else hmLookup k rest

/-- HashMap::remove, as called in the Msg::Render arm of App::update. -/
def hmRemove (k : String) (m : List (String × FileItem)) :
    List (String × FileItem) :=
  m.filter (fun p => p.1 != k)

/-- Strip every trailing ".pdf" occurrence, working on the reversed
character list (so the block reads "fdp."). -/
def stripAllPdf : List Char → List Char
  | 'f' :: 'd' :: 'p' :: '.' :: rest => stripAllPdf rest
  | l => l

/-- Rust str::trim_end_matches with pattern ".pdf", as used on line 70
of src/main.rs to derive the stem. -/
def trimEndMatchesPdf (s : String) : String :=
  String.mk ((stripAllPdf s.data.reverse).reverse)

/-- Document identifier derived from the display name (the stem). -/
def derivedId (f : FileItem) : String := trimEndMatchesPdf f.name

/-- Decides whether a reversed character list is a concatenation of
"fdp." blocks, i.e. whether the original string consists solely of
".pdf" repetitions; characterises exactly when the stem is empty. -/
def revPdfReps : List Char → Bool
  | [] => true
  | 'f' :: 'd' :: 'p' :: '.' :: rest => revPdfReps rest
  | _ => false

/-- Number of divisions by 1024 performed by humansize for BINARY
formatting (the scaling loop of format_size), fuelled by the length of
the unit list. -/
def scaleOfAux : Nat → Nat → Nat
  | 0, _ => 0
  | fuel + 1, size =>
    if 1024 ≤ size then scaleOfAux fuel (size / 1024) + 1 else 0

/-- Scale index for a byte count under binary units. -/
def scaleOf (size : Nat) : Nat := scaleOfAux 8 size

/-- Binary unit suffix for a scale index. -/
def unitName : Nat → String
  | 0 => "B"
  | 1 => "KiB"
  | 2 => "MiB"
  | 3 => "GiB"
  | 4 => "TiB"
  | 5 => "PiB"
  | 6 => "EiB"
  | 7 => "ZiB"
  | _ => "YiB"

/-- Two-digit zero padding for the fractional part. -/
def pad2 (n : Nat) : String :=
  if n < 10 then "0" ++ toString n else toString n

/-- Modelled from the spec: the humansize crate's
format_size(size, humansize::BINARY), an external dependency whose
source is not part of this repository. Binary 1024-based units; two
decimal places when the scaled value is not integral (rounding half to
even, which is exact here because the divisor is a power of two so the
f64 quotient is exact for inputs below 2 to the 53rd), no decimals when
it is integral, and a space before the unit suffix. -/
def formatSizeBinary (size : Nat) : String :=
  let k := scaleOf size
  let den := 1024 ^ k
  if size % den = 0 then
    toString (size / den) ++ " " ++ unitName k
  else
    let num := size * 100
    let q := num / den
    let r := num % den
    let rounded :=
      if den < 2 * r then q + 1
      else if 2 * r < den then q
      else if q % 2 = 0 then q else q + 1
    toString (rounded / 100) ++ "." ++ pad2 (rounded % 100) ++ " " ++ unitName k

/-- Three-digit zero padding of a page number, Rust format
specification 0-fill, right align, width 3. -/
def pad3 (n : Nat) : String :=
  if n < 10 then "00" ++ toString n
  else if n < 100 then "0" ++ toString n
  else toString n

/-- Zip entry name, Rust format string stem-page-NNN.ext as built on
lines 91-92 and 115-116 of src/main.rs. -/
def pageName (stem : String) (n : Nat) (ext : String) : String :=
  stem ++ "-page-" ++ pad3 n ++ "." ++ ext

/-- Entry names for count consecutive pages starting at page n,
ascending. -/
def pageNamesFrom (stem ext : String) (n : Nat) : Nat → List String
  | 0 => []
  | count + 1 => pageName stem n ext :: pageNamesFrom stem ext (n + 1) count

/-- External rendering and codec capabilities consumed by the upload
callback: hayro Pdf::new plus pages (decode), hayro render (renderPage),
Pixmap::take_png (pngEncode), and the image-crate png decode followed by
jpeg encode (jpegTranscode). Operations the source calls through expect
or unwrap are Option-valued. -/
structure Backend (Pg Px : Type) where
  decode : Bytes → Option (List Pg)
  renderPage : Pg → Px
  pngEncode : Px → Bytes
  jpegTranscode : Bytes → Option Bytes

/-- Page loop of the read_as_bytes callback (src/main.rs lines 85-126):
for each page, 1-indexed, rasterize, take the png bytes, append the png
zip entry, transcode the png bytes to jpeg, append the jpeg zip entry.
Any transcode failure is a panic in the source and aborts the whole
document. -/
def renderPages {Pg Px : Type} (b : Backend Pg Px) (stem : String) :
    List Pg → Nat → Option (List (String × Bytes) × List (String × Bytes))
  | [], _ => some ([], [])
  | p :: rest, n =>
    let pngBytes := b.pngEncode (b.renderPage p)
    match b.jpegTranscode pngBytes with
    | none => none
    | some jpegBytes =>
      match renderPages b stem rest (n + 1) with
      | none => none
      | some (pngs, jpegs) =>
        some ((pageName stem n ("png"), pngBytes) :: pngs,
              (pageName stem n ("jpeg"), jpegBytes) :: jpegs)

/-- Whole-document render (the read_as_bytes callback, src/main.rs
lines 77-146): decode the pdf, run the page loop from page 1, finish
both zips and build the RenderedImage. -/
def renderDocument {Pg Px : Type} (b : Backend Pg Px) (stem : String)
    (f : FileItem) : Option RenderedImage :=
  match b.decode f.data with
  | none => none
  | some pages =>
    match renderPages b stem pages 1 with
    | none => none
    | some (pngs, jpegs) =>
      some ⟨stem, formatSizeBinary f.size, pngs, jpegs⟩

/-- One iteration of the upload loop (Msg::Upload arm of App::update,
src/main.rs lines 64-148): reject any non-pdf media type with a
console error and continue; otherwise derive the stem, start the
asynchronous read and insert the reader, replacing any reader already
registered under the same stem. -/
def processItem (s : AppState) (f : FileItem) : AppState :=
  if f.mime = "application/pdf" then
    { s with readers := hmInsert (derivedId f) f s.readers }
  else s

/-- The whole upload loop over a batch. -/
def processUpload (s : AppState) (batch : List FileItem) : AppState :=
  batch.foldl processItem s

/-- Component update function (src/main.rs lines 56-152). On
Msg::Render the reader entry for the stem is removed and the document
pushed onto files; Msg::Upload runs the upload loop. -/
def update (s : AppState) : Msg → AppState
  | Msg.Render r => ⟨hmRemove r.stem s.readers, s.files ++ [r]⟩
  | Msg.Upload batch => processUpload s batch

/-- Processing of a message sequence by the component. -/
def processMsgs (s : AppState) (msgs : List Msg) : AppState :=
  msgs.foldl update s

/-- Payload extraction used to state the result-store property. -/
def renderPayload : Msg → Option RenderedImage
  | Msg.Render r => some r
  | Msg.Upload _ => none

/-- Settling of one pending read for a stem: on success the callback
sends Msg::Render, which the component processes at once; on any
failure the callback panics and no message is ever delivered, so the
reader entry stays and nothing is appended. -/
def settleTask {Pg Px : Type} (b : Backend Pg Px) (s : AppState)
    (stem : String) (f : FileItem) : AppState :=
  match renderDocument b stem f with
  | some r => update s (Msg.Render r)
  | none => s

/-- Suggested download filename of the png link (App::view_file,
src/main.rs line 218). -/
def pngDownloadName (r : RenderedImage) : String := r.stem ++ ".zip"

/-- Suggested download filename of the jpeg link (App::view_file,
src/main.rs line 222). -/
def jpegDownloadName (r : RenderedImage) : String := r.stem ++ ".zip"

/-- Registry invariant: each stem keys at most one reader. -/
def NoDupKeys (m : List (String × FileItem)) : Prop :=
  (m.map Prod.fst).Nodup

/-- Replacement character U+FFFD. -/
def replChar : Char := Char.ofNat 0xFFFD

/-- Continuation byte test, range 0x80 to 0xBF. -/
def contB (b : Nat) : Bool := 0x80 ≤ b && b ≤ 0xBF

/-- UTF-8 decoding with maximal-subpart replacement, the algorithm
behind Rust String::from_utf8_lossy; fuelled by the input length (each
step consumes one fuel and at least one byte, so fuel equal to the
length never runs out). A truncated but so far valid sequence at the
end of input yields a single replacement character. -/
def utf8LossyAux : Nat → Bytes → List Char
  | 0, _ => []
  | _ + 1, [] => []
  | fuel + 1, b :: rest =>
    if b ≤ 0x7F then Char.ofNat b :: utf8LossyAux fuel rest
    else if b < 0xC2 then replChar :: utf8LossyAux fuel rest
    else if b ≤ 0xDF then
      match rest with
      | [] => [replChar]
      | c1 :: rest1 =>
        if contB c1 then
          Char.ofNat ((b - 0xC0) * 0x40 + (c1 - 0x80)) :: utf8LossyAux fuel rest1
        else replChar :: utf8LossyAux fuel rest
    else if b ≤ 0xEF then
      match rest with
      | [] => [replChar]
      | c1 :: rest1 =>
        if ((if b = 0xE0 then 0xA0 else 0x80) ≤ c1 &&
            c1 ≤ (if b = 0xED then 0x9F else 0xBF)) then
          match rest1 with
          | [] => [replChar]
          | c2 :: rest2 =>
            if contB c2 then
              Char.ofNat ((b - 0xE0) * 0x1000 + (c1 - 0x80) * 0x40 + (c2 - 0x80)) ::
                utf8LossyAux fuel rest2
            else replChar :: utf8LossyAux fuel rest1
        else replChar :: utf8LossyAux fuel rest
    else if b ≤ 0xF4 then
      match rest with
      | [] => [replChar]
      | c1 :: rest1 =>
        if ((if b = 0xF0 then 0x90 else 0x80) ≤ c1 &&
            c1 ≤ (if b = 0xF4 then 0x8F else 0xBF)) then
          match rest1 with
          | [] => [replChar]
          | c2 :: rest2 =>
            if contB c2 then
              match rest2 with
              | [] => [replChar]
              | c3 :: rest3 =>
                if contB c3 then
                  Char.ofNat ((b - 0xF0) * 0x40000 + (c1 - 0x80) * 0x1000 +
                      (c2 - 0x80) * 0x40 + (c3 - 0x80)) ::
                    utf8LossyAux fuel rest3
                else replChar :: utf8LossyAux fuel rest2
            else replChar :: utf8LossyAux fuel rest1
        else replChar :: utf8LossyAux fuel rest
    else replChar :: utf8LossyAux fuel rest

/-- Rust String::from_utf8_lossy at the character-list level. -/
def fromUtf8Lossy (data : Bytes) : List Char := utf8LossyAux data.length data

/-- Character-level uppercasing as performed by str::to_uppercase,
modelled on the ASCII range (the full Unicode table is out of scope;
no claim depends on the content of the table). -/
def toUpperChar (c : Char) : Char :=
  if ('a' ≤ c && c ≤ 'z') then Char.ofNat (c.toNat - 32) else c

/-- process_file from src/lib.rs:
String::from_utf8_lossy(data).to_uppercase(). -/
def process_file (data : Bytes) : String :=
  String.mk ((fromUtf8Lossy data).map toUpperChar)

/-- Empty component state, as built by App::create. -/
def emptyState : AppState := ⟨[], []⟩

/-- First upload of a duplicate pair. -/
def dupA : FileItem := ⟨"a.pdf", "application/pdf", 10, [1]⟩

/-- Second upload of a duplicate pair: same stem, different content. -/
def dupB : FileItem := ⟨"a.pdf", "application/pdf", 20, [2]⟩

/-- An upload with a rejected media type. -/
def textItem : FileItem := ⟨"notes.txt", "text/plain", 10, [1, 2]⟩

/-- The end-to-end scenario upload of the spec. -/
def invItem : FileItem := ⟨"invoice.pdf", "application/pdf", 2150000, [4]⟩

/-- An accepted upload whose display name is exactly ".pdf". -/
def dotPdfItem : FileItem := ⟨".pdf", "application/pdf", 7, [1]⟩

/-- A three-page scenario upload. -/
def repItem : FileItem := ⟨"report.pdf", "application/pdf", 1000, [3]⟩

/-- An upload whose render will fail. -/
def failItem : FileItem := ⟨"doc.pdf", "application/pdf", 5, [9]⟩

/-- Backend delivering one page; every stage succeeds. -/
def natB1 : Backend Nat Nat :=
  ⟨fun _ => some [0], fun p => p, fun x => [x], fun x => some x⟩

/-- Backend delivering three pages; every stage succeeds. -/
def natB3 : Backend Nat Nat :=
  ⟨fun _ => some [0, 1, 2], fun p => p, fun x => [x], fun x => some x⟩

/-- Backend whose jpeg transcode fails on every page. -/
def failB : Backend Nat Nat :=
  ⟨fun _ => some [7], fun p => p, fun x => [x], fun _ => none⟩

/-- Backend decoding a document with zero pages. -/
def emptyB : Backend Nat Nat :=
  ⟨fun _ => some [], fun p => p, fun x => [x], fun x => some x⟩

/-- State with one pending task for stem doc. -/
def failState : AppState := ⟨[("doc", failItem)], []⟩

/-- Expected render result of the single-page invoice scenario. -/
def invRes : RenderedImage :=
  ⟨"invoice", "2.05 MiB",
   [("invoice-page-001.png", [0])],
   [("invoice-page-001.jpeg", [0])]⟩

/-- Expected render result of the three-page report scenario. -/
def repRes : RenderedImage :=
  ⟨"report", "1000 B",
   [("report-page-001.png", [0]), ("report-page-002.png", [1]),
    ("report-page-003.png", [2])],
   [("report-page-001.jpeg", [0]), ("report-page-002.jpeg", [1]),
    ("report-page-003.jpeg", [2])]⟩

/-- Keys of the map after an insert are the inserted key plus the old
keys. -/
lemma mem_keys_hmInsert (k x : String) (v : FileItem)
    (m : List (String × FileItem)) :
    x ∈ (hmInsert k v m).map Prod.fst ↔ x = k ∨ x ∈ m.map Prod.fst := by
  induction m with
  | nil => simp [hmInsert]
  | cons p rest ih =>
    obtain ⟨k1, v1⟩ := p
    by_cases hk : k1 = k
    · subst hk
      simp [hmInsert]
    · simp [hmInsert, hk, ih]
      tauto

/-- HashMap::insert keeps the keys without duplicates. -/
lemma noDupKeys_hmInsert (k : String) (v : FileItem)
    (m : List (String × FileItem)) (h : NoDupKeys m) :
    NoDupKeys (hmInsert k v m) := by
  induction m with
  | nil => simp [hmInsert, NoDupKeys]
  | cons p rest ih =>
    obtain ⟨k1, v1⟩ := p
    unfold NoDupKeys at h ⊢
    simp only [List.map_cons, List.nodup_cons] at h
    by_cases hk : k1 = k
    · subst hk
      simpa [hmInsert] using h
    · simp only [hmInsert, if_neg hk, List.map_cons, List.nodup_cons]
      refine ⟨?_, ih h.2⟩
      intro hmem
      rcases (mem_keys_hmInsert k k1 v rest).mp hmem with h1 | h1
      · exact hk h1
      · exact h.1 h1

/-- Looking up the key just inserted returns the inserted value. -/
lemma hmLookup_hmInsert (k : String) (v : FileItem)
    (m : List (String × FileItem)) :
    hmLookup k (hmInsert k v m) = some v := by
  induction m with
  | nil => simp [hmInsert, hmLookup]
  | cons p rest ih =>
    obtain ⟨k1, v1⟩ := p
    by_cases hk : k1 = k
    · simp [hmInsert, hk, hmLookup]
    · simp [hmInsert, hk, hmLookup, ih]

/-- One upload-loop iteration keeps the keys duplicate-free. -/
lemma noDupKeys_processItem (s : AppState) (f : FileItem)
    (h : NoDupKeys s.readers) : NoDupKeys (processItem s f).readers := by
  unfold processItem
  by_cases hm : f.mime = "application/pdf"
  · simpa [hm] using noDupKeys_hmInsert (derivedId f) f s.readers h
  · simpa [hm] using h

/-- The upload loop keeps the keys duplicate-free. -/
lemma noDupKeys_processUpload (s : AppState) (batch : List FileItem)
    (h : NoDupKeys s.readers) : NoDupKeys (processUpload s batch).readers := by
  induction batch generalizing s with
  | nil => exact h
  | cons f rest ih =>
    have h1 : processUpload s (f :: rest) = processUpload (processItem s f) rest := rfl
    rw [h1]
    exact ih (processItem s f) (noDupKeys_processItem s f h)

/-- An upload-loop iteration never touches the result store. -/
lemma processItem_files (s : AppState) (f : FileItem) :
    (processItem s f).files = s.files := by
  unfold processItem
  by_cases hm : f.mime = "application/pdf" <;> simp [hm]

/-- The upload loop never touches the result store. -/
lemma processUpload_files (s : AppState) (batch : List FileItem) :
    (processUpload s batch).files = s.files := by
  induction batch generalizing s with
  | nil => rfl
  | cons f rest ih =>
    have h1 : processUpload s (f :: rest) = processUpload (processItem s f) rest := rfl
    rw [h1, ih, processItem_files]

/-- C1. Corrected claim. The Task Registry (the reader map) holds at
most one active task per identifier at every instant, but a duplicate
submission is not dropped: HashMap::insert replaces the existing
in-flight task with the task of the new submission, so after uploading
two accepted files with the same derived identifier the registry maps
that identifier to the second task. -/
theorem C1_registry_amended :
    (∀ (s : AppState) (batch : List FileItem), NoDupKeys s.readers →
      NoDupKeys (processUpload s batch).readers) ∧
    (∀ (s : AppState) (f g : FileItem),
      f.mime = "application/pdf" → g.mime = "application/pdf" →
      derivedId g = derivedId f →
      hmLookup (derivedId g) (processUpload s [f, g]).readers = some g) := by
  constructor
  · exact fun s batch h => noDupKeys_processUpload s batch h
  · intro s f g hf hg hfg
    have h1 : processUpload s [f, g] = processItem (processItem s f) g := rfl
    rw [h1]
    unfold processItem
    rw [if_pos hg, if_pos hf]
    exact hmLookup_hmInsert (derivedId g) g _

/-- C1. Counterexample to the claim as stated: submitting a second
document with an identifier already pending is not a no-op that leaves
the existing task undisturbed; the registry afterwards holds the second
task, not the first. -/
theorem C1_counterexample :
    hmLookup ("a") (processUpload emptyState [dupA, dupB]).readers = some dupB ∧
    some dupB ≠ some dupA := by decide

/-- C1. Witness for the amended theorem at a concrete duplicate pair. -/
theorem C1_witness :
    NoDupKeys (processUpload emptyState [dupA, dupB]).readers ∧
    hmLookup (derivedId dupB) (processUpload emptyState [dupA, dupB]).readers
      = some dupB :=
  ⟨C1_registry_amended.1 emptyState [dupA, dupB] (by simp [NoDupKeys, emptyState]),
   C1_registry_amended.2 emptyState dupA dupB (by decide) (by decide) (by decide)⟩

/-- C7. Rejecting an item whose declared media type is not
application/pdf leaves the whole state unchanged (no task registered,
result store untouched) and processing of the remaining batch items
continues exactly as if the rejected item were absent; the reported
reason is a console error outside the component state. -/
theorem C7_reject_mime (s : AppState) (f : FileItem) (rest : List FileItem)
    (h : f.mime ≠ "application/pdf") :
    processUpload s (f :: rest) = processUpload s rest := by
  have h1 : processUpload s (f :: rest) = processUpload (processItem s f) rest := rfl
  rw [h1]
  unfold processItem
  rw [if_neg h]

/-- C7. Witness: a text/plain upload is dropped and the batch goes on. -/
theorem C7_witness :
    processUpload emptyState [textItem, invItem] = processUpload emptyState [invItem] :=
  C7_reject_mime emptyState textItem [invItem] (by decide)

/-- C8. For the upload named invoice.pdf with declared size 2150000
bytes, the derived identifier is invoice and the human-readable size
string is 2.05 MiB under binary 1024-based units. -/
theorem C8_invoice_format :
    derivedId invItem = "invoice" ∧ formatSizeBinary 2150000 = "2.05 MiB" := by
  decide

/-- C6. The result store is append-only and records exactly the
completed renders in completion order: processing any message sequence
extends the previous file list, in order, by precisely the payloads of
the Render messages; Upload messages never add, remove or mutate an
entry. -/
theorem C6_result_store (s : AppState) (msgs : List Msg) :
    (processMsgs s msgs).files = s.files ++ msgs.filterMap renderPayload := by
  induction msgs generalizing s with
  | nil => simp [processMsgs]
  | cons m rest ih =>
    have h1 : processMsgs s (m :: rest) = processMsgs (update s m) rest := rfl
    rw [h1, ih]
    cases m with
    | Render r => simp [update, renderPayload]
    | Upload batch => simp [update, renderPayload, processUpload_files]

/-- Specification of the page loop: on success it produces one png and
one jpeg entry per page, named stem-page-NNN.ext with the 1-indexed,
three-digit zero-padded page number, in ascending page order. -/
lemma renderPages_spec {Pg Px : Type} (b : Backend Pg Px) (stem : String) :
    ∀ (ps : List Pg) (n : Nat) (pngs jpegs : List (String × Bytes)),
      renderPages b stem ps n = some (pngs, jpegs) →
      pngs.map Prod.fst = pageNamesFrom stem ("png") n ps.length ∧
      jpegs.map Prod.fst = pageNamesFrom stem ("jpeg") n ps.length ∧
      pngs.length = ps.length ∧ jpegs.length = ps.length := by
  intro ps
  induction ps with
  | nil =>
    intro n pngs jpegs h
    simp only [renderPages, Option.some.injEq, Prod.mk.injEq] at h
    obtain ⟨h1, h2⟩ := h
    subst h1; subst h2
    simp [pageNamesFrom]
  | cons p rest ih =>
    intro n pngs jpegs h
    simp only [renderPages] at h
    cases hj : b.jpegTranscode (b.pngEncode (b.renderPage p)) with
    | none => rw [hj] at h; exact absurd h (by simp)
    | some jpegBytes =>
      rw [hj] at h
      cases hr : renderPages b stem rest (n + 1) with
      | none => rw [hr] at h; exact absurd h (by simp)
      | some pr =>
        obtain ⟨pngs1, jpegs1⟩ := pr
        rw [hr] at h
        simp only [Option.some.injEq, Prod.mk.injEq] at h
        obtain ⟨h1, h2⟩ := h
        obtain ⟨ih1, ih2, ih3, ih4⟩ := ih (n + 1) pngs1 jpegs1 hr
        subst h1; subst h2
        simp [pageNamesFrom, ih1, ih2, ih3, ih4]

/-- A jpeg-transcode failure on any page makes the whole page loop
fail, regardless of how many earlier pages succeeded. -/
lemma renderPages_fail {Pg Px : Type} (b : Backend Pg Px) (stem : String) :
    ∀ (ps : List Pg) (n : Nat),
      (∃ p, p ∈ ps ∧ b.jpegTranscode (b.pngEncode (b.renderPage p)) = none) →
      renderPages b stem ps n = none := by
  intro ps
  induction ps with
  | nil =>
    intro n h
    obtain ⟨p, hp, _⟩ := h
    exact absurd hp (List.not_mem_nil p)
  | cons q rest ih =>
    intro n h
    obtain ⟨p, hp, hfail⟩ := h
    rcases List.mem_cons.mp hp with h1 | h1
    · subst h1
      simp only [renderPages, hfail]
    · simp only [renderPages]
      cases hj : b.jpegTranscode (b.pngEncode (b.renderPage q)) with
      | none => rfl
      | some jb => simp [ih (n + 1) ⟨p, h1, hfail⟩]

/-- On a successful render the RenderedImage carries the requested
stem, the formatted size and the two entry lists of the page loop. -/
lemma renderDocument_spec {Pg Px : Type} (b : Backend Pg Px) (stem : String)
    (f : FileItem) (pages : List Pg) (r : RenderedImage)
    (hd : b.decode f.data = some pages)
    (hr : renderDocument b stem f = some r) :
    ∃ pngs jpegs, renderPages b stem pages 1 = some (pngs, jpegs) ∧
      r = ⟨stem, formatSizeBinary f.size, pngs, jpegs⟩ := by
  cases hp : renderPages b stem pages 1 with
  | none =>
    simp only [renderDocument, hd, hp] at hr
    exact absurd hr (by simp)
  | some pr =>
    obtain ⟨pngs, jpegs⟩ := pr
    simp only [renderDocument, hd, hp, Option.some.injEq] at hr
    exact ⟨pngs, jpegs, rfl, hr.symm⟩

/-- C5. For every accepted multi-page document with P pages and each
of the two formats, the produced archive contains exactly P entries,
one per page, named stem-page-NNN.ext with the 1-indexed page number
zero-padded to three digits, in ascending page order. -/
theorem C5_archive_entries {Pg Px : Type} (b : Backend Pg Px) (stem : String)
    (f : FileItem) (pages : List Pg) (r : RenderedImage)
    (hd : b.decode f.data = some pages) (hp : 1 < pages.length)
    (hr : renderDocument b stem f = some r) :
    r.png_zip.map Prod.fst = pageNamesFrom stem ("png") 1 pages.length ∧
    r.jpeg_zip.map Prod.fst = pageNamesFrom stem ("jpeg") 1 pages.length ∧
    r.png_zip.length = pages.length ∧ r.jpeg_zip.length = pages.length := by
  obtain ⟨pngs, jpegs, hpg, hres⟩ := renderDocument_spec b stem f pages r hd hr
  subst hres
  simpa using renderPages_spec b stem pages 1 pngs jpegs hpg

/-- C5. Witness: the three-page report renders to archives with the
three entries report-page-001 through report-page-003, in order. -/
theorem C5_witness :
    repRes.png_zip.map Prod.fst = pageNamesFrom ("report") ("png") 1 3 ∧
    repRes.jpeg_zip.map Prod.fst = pageNamesFrom ("report") ("jpeg") 1 3 ∧
    repRes.png_zip.length = 3 ∧ repRes.jpeg_zip.length = 3 :=
  C5_archive_entries natB3 ("report") repItem [0, 1, 2] repRes
    (by decide) (by decide) (by decide)

/-- C2. Corrected claim. A single-page document does not yield a bare
EncodedAsset: its deliverable per format is still an archive, holding
the one entry stem-page-001.ext, and the suggested download filename
of both links is stem.zip, exactly as for multi-page documents. -/
theorem C2_single_page_amended {Pg Px : Type} (b : Backend Pg Px)
    (stem : String) (f : FileItem) (pages : List Pg) (r : RenderedImage)
    (hd : b.decode f.data = some pages) (hp : pages.length = 1)
    (hr : renderDocument b stem f = some r) :
    r.png_zip.map Prod.fst = [pageName stem 1 ("png")] ∧
    r.jpeg_zip.map Prod.fst = [pageName stem 1 ("jpeg")] ∧
    pngDownloadName r = stem ++ ".zip" ∧
    jpegDownloadName r = stem ++ ".zip" := by
  obtain ⟨pngs, jpegs, hpg, hres⟩ := renderDocument_spec b stem f pages r hd hr
  obtain ⟨h1, h2, h3, h4⟩ := renderPages_spec b stem pages 1 pngs jpegs hpg
  subst hres
  rw [hp] at h1 h2
  exact ⟨h1, h2, rfl, rfl⟩

/-- C2. Counterexample to the claim as stated: the accepted single-page
invoice document produces a zip archive whose single entry is named
invoice-page-001.png, and the suggested download filename is
invoice.zip, not invoice.png. -/
theorem C2_counterexample :
    renderDocument natB1 ("invoice") invItem = some invRes ∧
    pngDownloadName invRes ≠ "invoice.png" ∧
    invRes.png_zip.map Prod.fst ≠ ["invoice.png"] := by decide

/-- C2. Witness for the amended theorem at the single-page invoice. -/
theorem C2_witness :
    invRes.png_zip.map Prod.fst = [pageName ("invoice") 1 ("png")] ∧
    invRes.jpeg_zip.map Prod.fst = [pageName ("invoice") 1 ("jpeg")] ∧
    pngDownloadName invRes = "invoice" ++ ".zip" ∧
    jpegDownloadName invRes = "invoice" ++ ".zip" :=
  C2_single_page_amended natB1 ("invoice") invItem [0] invRes
    (by decide) (by decide) (by decide)

/-- C3. Corrected claim. If the encoding of any page fails, the whole
document render is aborted: no partial or degraded RenderedDocument is
ever appended to the result store; but the controller does not release
the identifier's task slot, because the failing callback panics before
any completion message is sent, so the reader entry stays registered. -/
theorem C3_failure_amended {Pg Px : Type} (b : Backend Pg Px) (s : AppState)
    (stem : String) (f : FileItem) (pages : List Pg)
    (hd : b.decode f.data = some pages)
    (hex : ∃ p, p ∈ pages ∧ b.jpegTranscode (b.pngEncode (b.renderPage p)) = none) :
    renderDocument b stem f = none ∧
    (settleTask b s stem f).files = s.files ∧
    (settleTask b s stem f).readers = s.readers := by
  have hrd : renderDocument b stem f = none := by
    simp only [renderDocument, hd, renderPages_fail b stem pages 1 hex]
  refine ⟨hrd, ?_, ?_⟩ <;> unfold settleTask <;> rw [hrd]

/-- C3. Counterexample to the claim as stated: after a failing render
for the pending identifier doc, the task slot is not released — the
registry still holds the entry, unlike what a complete call would
leave — even though nothing was appended to the result store. -/
theorem C3_counterexample :
    (settleTask failB failState ("doc") failItem).readers ≠
      hmRemove ("doc") failState.readers ∧
    (settleTask failB failState ("doc") failItem).files = [] := by decide

/-- C3. Witness for the amended theorem at the failing backend. -/
theorem C3_witness :
    renderDocument failB ("doc") failItem = none ∧
    (settleTask failB failState ("doc") failItem).files = failState.files ∧
    (settleTask failB failState ("doc") failItem).readers = failState.readers :=
  C3_failure_amended failB failState ("doc") failItem [7]
    (by decide) ⟨7, by decide, by decide⟩

/-- C4. Corrected claim. A document whose decoded page count is zero
does not fail: there is no EmptyDocument error in the code. The page
loop runs zero times, a RenderedDocument with two empty archives is
produced and appended to the result store, and the task slot is
released exactly as for any success. -/
theorem C4_empty_amended {Pg Px : Type} (b : Backend Pg Px) (s : AppState)
    (stem : String) (f : FileItem)
    (hd : b.decode f.data = some ([] : List Pg)) :
    renderDocument b stem f = some ⟨stem, formatSizeBinary f.size, [], []⟩ ∧
    (settleTask b s stem f).files =
      s.files ++ [⟨stem, formatSizeBinary f.size, [], []⟩] ∧
    (settleTask b s stem f).readers = hmRemove stem s.readers := by
  have h1 : renderDocument b stem f = some ⟨stem, formatSizeBinary f.size, [], []⟩ := by
    unfold renderDocument
    rw [hd]
    rfl
  refine ⟨h1, ?_, ?_⟩ <;> unfold settleTask <;> rw [h1] <;> rfl

/-- C4. Counterexample to the claim as stated: a zero-page document is
rendered rather than failed — the render produces a result and the
result store gains an entry. -/
theorem C4_counterexample :
    renderDocument emptyB ("doc") failItem ≠ none ∧
    (settleTask emptyB failState ("doc") failItem).files ≠ [] := by decide

/-- C4. Witness for the amended theorem at the zero-page backend. -/
theorem C4_witness :
    renderDocument emptyB ("doc") failItem =
      some ⟨"doc", formatSizeBinary failItem.size, [], []⟩ ∧
    (settleTask emptyB failState ("doc") failItem).files =
      failState.files ++ [⟨"doc", formatSizeBinary failItem.size, [], []⟩] ∧
    (settleTask emptyB failState ("doc") failItem).readers =
      hmRemove ("doc") failState.readers :=
  C4_empty_amended emptyB failState ("doc") failItem (by decide)

/-- If stripping every trailing ".pdf" block leaves nothing, the
reversed name was a concatenation of "fdp." blocks. -/
lemma stripAllPdf_nil_reps :
    ∀ (n : Nat) (l : List Char), l.length ≤ n → stripAllPdf l = [] →
      revPdfReps l = true := by
  intro n
  induction n with
  | zero =>
    intro l h1 h2
    cases l with
    | nil => rfl
    | cons a t => simp at h1
  | succ n ih =>
    intro l h1 h2
    rw [stripAllPdf.eq_def] at h2
    split at h2
    · next rest =>
      have hlen : rest.length ≤ n := by
        simp only [List.length_cons] at h1
        omega
      have hrec := ih rest hlen h2
      simpa [revPdfReps] using hrec
    · next hne =>
      subst h2
      rfl

/-- C9. Corrected claim. The identifier derived by stripping the
trailing ".pdf" suffixes is non-empty for every accepted upload whose
display name is not itself a pure concatenation of ".pdf" blocks; a
name consisting solely of such blocks (for example exactly ".pdf")
yields the empty identifier. -/
theorem C9_nonempty_amended (f : FileItem)
    (h : revPdfReps f.name.data.reverse = false) : derivedId f ≠ "" := by
  intro he
  have h2 : (stripAllPdf f.name.data.reverse).reverse = [] := by
    have := congrArg String.data he
    simpa [derivedId, trimEndMatchesPdf] using this
  have h3 : stripAllPdf f.name.data.reverse = [] :=
    List.reverse_eq_nil_iff.mp h2
  have h4 := stripAllPdf_nil_reps f.name.data.reverse.length
    f.name.data.reverse le_rfl h3
  rw [h4] at h
  exact Bool.noConfusion h

/-- C9. Counterexample to the claim as stated: the accepted upload
named exactly ".pdf" derives the empty identifier. -/
theorem C9_counterexample :
    dotPdfItem.mime = "application/pdf" ∧ derivedId dotPdfItem = "" := by
  decide

/-- C9. Witness for the amended theorem at the invoice upload. -/
theorem C9_witness : derivedId invItem ≠ "" :=
  C9_nonempty_amended invItem (by decide)

/-- C10. process_file is total and deterministic: as a Lean function it
returns a value for every byte list, that value is exactly the
character-wise uppercase of the lossy UTF-8 decoding of the bytes
(invalid sequences replaced by U+FFFD per maximal subpart), and equal
inputs give equal outputs. -/
theorem C10_process_file :
    (∀ data : Bytes, (process_file data).data = (fromUtf8Lossy data).map toUpperChar) ∧
    (∀ d1 d2 : Bytes, d1 = d2 → process_file d1 = process_file d2) := by
  constructor
  · intro data
    rfl
  · intro d1 d2 h
    rw [h]

/-- C10. Witness: applied at a concrete input containing an invalid
byte, whose lossy decoding uppercases to a string with a replacement
character. -/
theorem C10_witness :
    process_file [97, 255, 98] = process_file [97, 255, 98] ∧
    process_file [97, 255, 98] = String.mk ['A', replChar, 'B'] :=
  ⟨C10_process_file.2 [97, 255, 98] [97, 255, 98] rfl, by decide⟩
